import Mathlib

/-!
Verification of `pkg/mutation/assign_mutator.go` (gatekeeper mutation core).

The file embeds the Go source shallowly:

* `parser.Node` is a Go interface implemented by `*parser.Object` and
  `*parser.List`; it becomes the closed inductive `Node`.  `parser.Path`
  becomes the structure `Path` with its `Nodes` field.
* Decoded JSON values (`interface{}` produced by `json.Unmarshal`) become
  the inductive `Value`.  A Go `map[string]interface{}` is represented by
  an association list with unique keys; `lookupField` is map indexing
  (`none` plays the role of the `nil` interface returned for a missing
  key).
* Functions external to the repository snapshot (`parser.Parse`,
  `MakeID`, the package-level `Matches` predicate, `json.Unmarshal`) are
  represented by their results, passed as arguments, so the control flow
  of the embedded functions is exactly the control flow of the Go source.
* Go errors become `Except String`.
-/

namespace Gatekeeper

/-- `parser.NodeType`: the variant tag exposed by `Node.Type()`. -/
inductive NodeType where
  | objectNode
  | listNode
deriving DecidableEq

/-- `parser.Node`: an Object node (`*parser.Object`, field `Reference`) or a
List node (`*parser.List`, fields `Glob`, `KeyField`, `KeyValue`, where
`KeyValue` is a `*string`, hence `Option String`). -/
inductive Node where
  | object (reference : String)
  | list (glob : Bool) (keyField : String) (keyValue : Option String)
deriving DecidableEq

/-- `Node.Type()` dispatch. -/
def Node.type : Node → NodeType
  | .object _ => .objectNode
  | .list _ _ _ => .listNode

/-- `parser.Path`: ordered sequence of nodes. -/
structure Path where
  nodes : List Node
deriving DecidableEq

/-- A decoded JSON value (`interface{}` after `json.Unmarshal`).  Numbers are
abstracted to `Int`: no claim in this development depends on numeric
values, only on whether a value is a string or a structured object. -/
inductive Value where
  | null
  | bool (b : Bool)
  | num (n : Int)
  | str (s : String)
  | arr (elems : List Value)
  | obj (fields : List (String × Value))

/-- Indexing a Go `map[string]interface{}`: `none` models the `nil`
interface returned for a missing key.  Field lists decoded from JSON have
unique keys, so first-match lookup is map lookup. -/
def lookupField : List (String × Value) → String → Option Value
  | [], _ => none
  | (k, v) :: rest, key => if k = key then some v else lookupField rest key

/-- Whether a decoded value is a `map[string]interface{}` (the type
assertion `value.(map[string]interface{})` succeeds). -/
def Value.isObj : Value → Bool
  | .obj _ => true
  | _ => false

/-- The Go comparison `*listNode.KeyValue != valueMap[listNode.KeyField]`
compares a `string` with an `interface{}`: they are equal exactly when the
interface carries an equal string. -/
def keyMatches (objVal : Option Value) (kv : String) : Bool :=
  match objVal with
  | some (.str s) => s = kv
  | _ => false

/-- `hasMetadataRoot` (assign_mutator.go:173-182): true iff the first node
exists and `reflect.DeepEqual`s `&parser.Object{Reference: "metadata"}`. -/
def hasMetadataRoot (path : Path) : Bool :=
  match path.nodes with
  | [] => false
  | n :: _ => n = Node.object "metadata"

/-- `checkKeyNotChanged` (assign_mutator.go:186-215).  The Go code indexes
`Nodes[len-1]` and `Nodes[len-2]`; here the same two nodes are read off
the head of the reversed node list.  The Go type-assertion failure
branches are unreachable because `Node` is a closed sum. -/
def checkKeyNotChanged (p : Path) : Except String Unit :=
  match p.nodes.reverse with
  | [] => .error "empty path"
  | [_] => .ok ()
  | lastNode :: secondLastNode :: _ =>
    match secondLastNode, lastNode with
    | .object _, _ => .ok ()
    | .list _ _ _, .list _ _ _ =>
      .error "invalid path format: child of a list can't be a list"
    | .list _ keyField _, .object ref =>
      if ref = keyField then
        .error "invalid path format: changing the item key is not allowed"
      else .ok ()

/-- The message of assign_mutator.go:239, naming the list key and the
object's key field value (`renderValue` models the `%s` rendering of the
dynamic value stored at `valueMap[keyField]`; `"<nil>"` renders the `nil`
interface of a missing key). -/
def renderValue : Option Value → String
  | none => "<nil>"
  | some (.str s) => s
  | some (.bool b) => if b then "true" else "false"
  | some (.num n) => toString n
  | some .null => "<nil>"
  | some (.arr _) => "<array>"
  | some (.obj _) => "<object>"

def keyMismatchMsg (keyField kv : String) (objVal : Option Value) : String :=
  "adding object to list with different key " ++ keyField ++ ": list key "
    ++ kv ++ ", object key " ++ renderValue objVal

/-- `validateObjectAssignedToList` (assign_mutator.go:217-243).  The last
node is read off the head of the reversed node list. -/
def validateObjectAssignedToList (p : Path) (value : Value) : Except String Unit :=
  match p.nodes.reverse with
  | [] => .error "empty path"
  | lastNode :: _ =>
    match lastNode with
    | .object _ => .ok ()
    | .list glob keyField keyValue =>
      if glob then .error "can't append to a globbed list"
      else
        match keyValue with
        | none => .error "invalid key value for a non globbed object"
        | some kv =>
          match value with
          | .obj fields =>
            if keyMatches (lookupField fields keyField) kv then .ok ()
            else .error (keyMismatchMsg keyField kv (lookupField fields keyField))
          | _ => .error "only full objects can be appended to lists"

/-- `json.Unmarshal(raw, &toAssign)` with `toAssign` a freshly made
`map[string]interface{}`: the input is the decode of the raw bytes (`none`
for malformed JSON).  A JSON object yields its fields; JSON `null` leaves
the pre-made empty map unchanged; any other top level fails with an
unmarshal type error. -/
def unmarshalObject : Option Value → Except String (List (String × Value))
  | none => .error "invalid format for parameters.assign"
  | some (.obj fields) => .ok fields
  | some .null => .ok []
  | some _ => .error "invalid format for parameters.assign"

/-- `IsValidAssign` (assign_mutator.go:140-171).  `parsed` is the result of
the external `parser.Parse(assign.Spec.Location)`; `decoded` is the decode
of `assign.Spec.Parameters.Assign.Raw` fed to `json.Unmarshal` (see
`unmarshalObject`).  All check order and short-circuiting follow the Go
source. -/
def IsValidAssign (parsed : Except String Path) (decoded : Option Value) :
    Except String Unit :=
  match parsed with
  | .error e => .error ("invalid location format: " ++ e)
  | .ok path =>
    if hasMetadataRoot path then .error "assign can't change metadata"
    else
      match checkKeyNotChanged path with
      | .error e => .error e
      | .ok () =>
        match unmarshalObject decoded with
        | .error e => .error e
        | .ok toAssign =>
          match lookupField toAssign "value" with
          | none => .error "spec.parameters.assign must have a value field"
          | some value => validateObjectAssignedToList path value

/-- `SchemaBinding` (declared outside this file in the same package):
ordered lists of API groups, kinds and versions. -/
structure SchemaBinding where
  groups : List String
  kinds : List String
  versions : List String
deriving DecidableEq

/-- `mutationsv1alpha1.ApplyTo`: one `applyTo` entry of the declaration. -/
structure ApplyTo where
  groups : List String
  kinds : List String
  versions : List String
deriving DecidableEq

/-- Modelled from the spec: the general object-match criteria
(`assign.Spec.Match`) are an external collaborator; this core only carries
the data, so they are opaque comparable data here. -/
structure Match where
  raw : String
deriving DecidableEq

/-- `assign.Spec.Parameters`: `assign` holds the raw bytes of the value
payload (`Parameters.Assign.Raw`), compared byte-wise by `cmp.Equal`. -/
structure Parameters where
  assignRaw : String
deriving DecidableEq

/-- `mutationsv1alpha1.AssignSpec`: applyTo entries, match criteria, the
location expression and the value payload. -/
structure AssignSpec where
  applyTo : List ApplyTo
  matchCriteria : Match
  location : String
  parameters : Parameters
deriving DecidableEq

/-- `mutationsv1alpha1.Assign`: the declaring policy object (its name plus
its spec; only these are read by the embedded code). -/
structure Assign where
  name : String
  spec : AssignSpec
deriving DecidableEq

/-- Modelled from the spec: `ID` (built by the external `MakeID`) is an
opaque comparable identity derived from the group/kind/namespace/name of
the declaring object. -/
structure ID where
  group : String
  kind : String
  nspace : String
  name : String
deriving DecidableEq

/-- `AssignMutator` (assign_mutator.go:19-24), at the value level:
`path *parser.Path` and the `assign` pointer are dereferenced, since
`cmp.Equal` and `reflect.DeepEqual` compare the pointed-to values. -/
structure AssignMutator where
  id : ID
  assign : Assign
  path : Path
  bindings : List SchemaBinding
deriving DecidableEq

/-- `Matches` (assign_mutator.go:29-36).  The package-level predicate
`Matches(m.assign.Spec.Match, obj, ns)` is external to the snapshot and is
passed in as `pkgMatches`; the document and namespace types are opaque
type parameters.  An error from the predicate is logged and the method
returns `false`. -/
def AssignMutator.Matches {α β : Type} (m : AssignMutator)
    (pkgMatches : Match → α → β → Except String Bool) (obj : α) (ns : β) : Bool :=
  match pkgMatches m.assign.spec.matchCriteria obj ns with
  | .error _ => false
  | .ok isMatch => isMatch

/-- `HasDiff` (assign_mutator.go:53-75), restricted to two `AssignMutator`
receivers (the `mutator.(*AssignMutator)` type assertion succeeded).
`cmp.Equal` is structural equality of the pointed-to values. -/
def AssignMutator.HasDiff (m toCheck : AssignMutator) : Bool :=
  if ¬(toCheck.id = m.id) then true
  else if ¬(toCheck.path = m.path) then true
  else if ¬(toCheck.bindings = m.bindings) then true
  else if ¬(toCheck.assign.spec = m.assign.spec) then true
  else false

/-- `applyToToBindings` (assign_mutator.go:116-136): element-wise copy of
each `applyTo` entry into a `SchemaBinding`. -/
def applyToToBindings (applyTos : List ApplyTo) : List SchemaBinding :=
  applyTos.map fun applyTo =>
    { groups := applyTo.groups
      kinds := applyTo.kinds
      versions := applyTo.versions }

/-- `MutatorForAssign` (assign_mutator.go:97-114).  `mid` is the result of
the external `MakeID(assign)` and `parsed` the result of the external
`parser.Parse(assign.Spec.Location)`.  Note: the function does not call
`IsValidAssign`. -/
def MutatorForAssign (mid : Except String ID) (parsed : Except String Path)
    (assign : Assign) : Except String AssignMutator :=
  match mid with
  | .error e => .error ("Failed to retrieve id for assign type: " ++ e)
  | .ok id =>
    match parsed with
    | .error e => .error ("Failed to parse the location specified: " ++ e)
    | .ok path =>
      .ok { id := id
            assign := assign
            bindings := applyToToBindings assign.spec.applyTo
            path := path }

/-!
## Pointer-level model for `DeepCopy`

`DeepCopy` (assign_mutator.go:81-93) copies slices whose elements carry
references: `path.Nodes` is a `[]parser.Node` of interface values holding
`*Object` / `*List` pointers, and each `SchemaBinding` holds `[]string`
slice headers pointing into backing arrays.  To reason about sharing, the
record is re-expressed with explicit addresses into a heap `Mem`:
a path node is an address of a `Node` cell, and each binding dimension is
an address of a string-array cell.
-/

/-- The heap: node cells (pointees of `parser.Node` interface values) and
string-array cells (backing arrays of `[]string`). -/
structure Mem where
  nodeCells : List Node
  strCells : List (List String)
deriving DecidableEq

/-- `*parser.Path` at the pointer level: the `Nodes` slice holds addresses
of node cells. -/
structure PathRef where
  nodes : List Nat
deriving DecidableEq

/-- `SchemaBinding` at the pointer level: each `[]string` is the address of
its backing array. -/
structure SchemaBindingRef where
  groups : Nat
  kinds : Nat
  versions : Nat
deriving DecidableEq

/-- `AssignMutator` at the pointer level.  `id` and `assign` are value
data: `ID` is a struct of strings, and `m.assign.DeepCopy()` is the
generated full deep copy, so neither shares mutable state. -/
structure AssignMutatorRef where
  id : ID
  assign : Assign
  path : PathRef
  bindings : List SchemaBindingRef
deriving DecidableEq

/-- `DeepCopy` (assign_mutator.go:81-93) at the pointer level:
`res.path.Nodes` is a fresh slice filled by `copy` with the same interface
values, i.e. the same node-cell addresses; `res.bindings` is a fresh slice
filled by `copy` with the same `SchemaBinding` structs, i.e. the same
string-array addresses inside each binding. -/
def AssignMutatorRef.DeepCopy (m : AssignMutatorRef) : AssignMutatorRef :=
  { id := m.id
    assign := m.assign
    path := { nodes := m.path.nodes }
    bindings := m.bindings }

/-- Assignment through a node pointer: `node.(*parser.Object).Reference = x`
updates the pointed-to cell. -/
def writeNode (mem : Mem) (addr : Nat) (n : Node) : Mem :=
  { mem with nodeCells := mem.nodeCells.set addr n }

/-- Assignment through a `[]string`: updating an element writes into the
backing array. -/
def writeStrCell (mem : Mem) (addr : Nat) (ss : List String) : Mem :=
  { mem with strCells := mem.strCells.set addr ss }

/-- The value a `PathRef` denotes: the pointed-to nodes, in order. -/
def derefPath (mem : Mem) (p : PathRef) : List Node :=
  p.nodes.map fun addr => mem.nodeCells.getD addr (Node.object "")

/-- The value a `SchemaBindingRef` denotes. -/
def derefBinding (mem : Mem) (b : SchemaBindingRef) : SchemaBinding :=
  { groups := mem.strCells.getD b.groups []
    kinds := mem.strCells.getD b.kinds []
    versions := mem.strCells.getD b.versions [] }

def derefBindings (mem : Mem) (bs : List SchemaBindingRef) : List SchemaBinding :=
  bs.map (derefBinding mem)

/-- Whether a decode result is a JSON object (what `json.Unmarshal` into a
`map[string]interface{}` accepts apart from `null`). -/
def decodesToObject : Option Value → Bool
  | some (.obj _) => true
  | _ => false

/-!
## Sample inputs shared by the witnesses and counterexamples
-/

def sampleID : ID :=
  { group := "mutations.gatekeeper.sh", kind := "Assign", nspace := "", name := "demo" }

def sampleAssign : Assign :=
  { name := "demo"
    spec :=
      { applyTo := [{ groups := ["apps"], kinds := ["Deployment"], versions := ["v1"] }]
        matchCriteria := { raw := "" }
        location := "metadata.labels.team"
        parameters := { assignRaw := "value: x" } } }

def metadataPath : Path := ⟨[Node.object "metadata", Node.object "labels"]⟩

def metadataMutator : AssignMutator :=
  { id := sampleID
    assign := sampleAssign
    path := metadataPath
    bindings := applyToToBindings sampleAssign.spec.applyTo }

def sampleListPath : Path :=
  ⟨[Node.object "spec", Node.list false "name" (some "nginx")]⟩

def sharedMem : Mem :=
  { nodeCells := [Node.object "spec"], strCells := [["apps"], ["Deployment"], ["v1"]] }

def sharedMutatorRef : AssignMutatorRef :=
  { id := sampleID
    assign := sampleAssign
    path := { nodes := [0] }
    bindings := [{ groups := 0, kinds := 1, versions := 2 }] }

/-!
## Claims
-/

/-- Helper: a `checkKeyNotChanged` failure makes `IsValidAssign` reject
(either with that failure, or earlier with the metadata-root failure). -/
theorem isValidAssign_error_of_checkKey (path : Path) (decoded : Option Value)
    (e : String) (h : checkKeyNotChanged path = .error e) :
    ∃ msg, IsValidAssign (.ok path) decoded = .error msg := by
  by_cases hm : hasMetadataRoot path = true
  · exact ⟨"assign can't change metadata", by unfold IsValidAssign; simp [hm]⟩
  · rw [Bool.not_eq_true] at hm
    exact ⟨e, by unfold IsValidAssign; simp [hm, h]⟩

/-- Helper: when the first three rules pass and the payload is an object
with a `value` field, `IsValidAssign` is exactly
`validateObjectAssignedToList` on the extracted value. -/
theorem isValidAssign_value_reduction (path : Path)
    (fields : List (String × Value)) (v : Value)
    (hmeta : hasMetadataRoot path = false)
    (hkey : checkKeyNotChanged path = .ok ())
    (hval : lookupField fields "value" = some v) :
    IsValidAssign (.ok path) (some (.obj fields)) =
      validateObjectAssignedToList path v := by
  unfold IsValidAssign
  simp [hmeta, hkey, unmarshalObject, hval]

/-- C3: for every path whose first node is an Object node with reference
`"metadata"`, `IsValidAssign` rejects, regardless of the value payload. -/
theorem IsValidAssign_metadata_root (rest : List Node) (decoded : Option Value) :
    IsValidAssign (.ok ⟨Node.object "metadata" :: rest⟩) decoded =
      .error "assign can't change metadata" := rfl

/-- C5: for every path with zero nodes, `IsValidAssign` rejects, regardless
of the value payload and of any other rule. -/
theorem IsValidAssign_empty_path (decoded : Option Value) :
    IsValidAssign (.ok ⟨[]⟩) decoded = .error "empty path" := rfl

/-- C6: whenever the external applicability predicate returns an error,
`Matches` returns false — a predicate failure never causes the mutation to
apply. -/
theorem Matches_error_is_no_match {α β : Type} (m : AssignMutator)
    (pkgMatches : Match → α → β → Except String Bool) (obj : α) (ns : β)
    (e : String)
    (h : pkgMatches m.assign.spec.matchCriteria obj ns = .error e) :
    m.Matches pkgMatches obj ns = false := by
  unfold AssignMutator.Matches
  rw [h]

theorem Matches_error_is_no_match_witness :
    AssignMutator.Matches (α := Unit) (β := Unit) metadataMutator
      (fun _ _ _ => Except.error "predicate failure") () () = false :=
  Matches_error_is_no_match metadataMutator
    (fun _ _ _ => Except.error "predicate failure") () () "predicate failure" rfl

/-- C7: `HasDiff` between two `AssignMutator` records is true exactly when
the identity, parsed path, schema bindings or declaration spec differ by
structural value, and false exactly when all four agree. -/
theorem HasDiff_structural (m toCheck : AssignMutator) :
    (AssignMutator.HasDiff m toCheck = false ↔
      (toCheck.id = m.id ∧ toCheck.path = m.path ∧ toCheck.bindings = m.bindings
        ∧ toCheck.assign.spec = m.assign.spec))
    ∧ (AssignMutator.HasDiff m toCheck = true ↔
      ¬(toCheck.id = m.id ∧ toCheck.path = m.path ∧ toCheck.bindings = m.bindings
        ∧ toCheck.assign.spec = m.assign.spec)) := by
  unfold AssignMutator.HasDiff
  constructor <;> split_ifs <;> simp_all

theorem HasDiff_structural_witness :
    AssignMutator.HasDiff metadataMutator metadataMutator = false :=
  (HasDiff_structural metadataMutator metadataMutator).1.mpr ⟨rfl, rfl, rfl, rfl⟩

/-- C8: evaluation of `DeepCopy` at a concrete record.  The copy's path
slice holds the same node-cell addresses and its bindings the same
string-array addresses as the original, so a write through the copy's
first path node (resp. through the copy's first binding's `Groups` slice)
changes the value the original's path (resp. bindings) denotes. -/
theorem DeepCopy_shares_mutable_state :
    sharedMutatorRef.DeepCopy.path.nodes = sharedMutatorRef.path.nodes
    ∧ sharedMutatorRef.DeepCopy.bindings = sharedMutatorRef.bindings
    ∧ derefPath
        (writeNode sharedMem (sharedMutatorRef.DeepCopy.path.nodes.headD 99)
          (Node.object "changed"))
        sharedMutatorRef.path ≠
      derefPath sharedMem sharedMutatorRef.path
    ∧ derefBindings
        (writeStrCell sharedMem
          ((sharedMutatorRef.DeepCopy.bindings.headD ⟨99, 99, 99⟩).groups)
          ["other"])
        sharedMutatorRef.bindings ≠
      derefBindings sharedMem sharedMutatorRef.bindings := by
  refine ⟨rfl, rfl, ?_, ?_⟩ <;> decide

/-- C9 counterexample: `MutatorForAssign` produces a record for a
declaration that `IsValidAssign` rejects (metadata root), so construction
does not enforce the validation rules. -/
theorem MutatorForAssign_skips_validation :
    MutatorForAssign (.ok sampleID) (.ok metadataPath) sampleAssign =
      .ok metadataMutator
    ∧ IsValidAssign (.ok metadataPath) (some (.obj [("value", .str "x")])) =
      .error "assign can't change metadata" :=
  ⟨rfl, rfl⟩

/-- C9 (amended): construction parses (and computes the identity) at that
point — it fails exactly when `MakeID` or `parser.Parse` fails, and
otherwise returns the record built from the parsed path and bindings; it
does not invoke the semantic validation rules. -/
theorem MutatorForAssign_ok_iff (mid : Except String ID)
    (parsed : Except String Path) (assign : Assign) :
    ((∃ m, MutatorForAssign mid parsed assign = .ok m) ↔
      (∃ i, mid = .ok i) ∧ (∃ p, parsed = .ok p))
    ∧ (∀ i p, mid = .ok i → parsed = .ok p →
      MutatorForAssign mid parsed assign =
        .ok { id := i, assign := assign, path := p,
              bindings := applyToToBindings assign.spec.applyTo }) := by
  cases mid <;> cases parsed <;> simp [MutatorForAssign]

theorem MutatorForAssign_ok_iff_witness :
    MutatorForAssign (.ok sampleID) (.ok metadataPath) sampleAssign =
      .ok { id := sampleID, assign := sampleAssign, path := metadataPath,
            bindings := applyToToBindings sampleAssign.spec.applyTo } :=
  (MutatorForAssign_ok_iff (.ok sampleID) (.ok metadataPath) sampleAssign).2
    sampleID metadataPath rfl rfl

/-- C2: if the second-to-last node is a List node, validation rejects when
the last node is an Object node whose reference equals the List node's
key field, and rejects when the last node is not an Object node; when the
second-to-last node is not a List node, `checkKeyNotChanged` imposes no
constraint. -/
theorem IsValidAssign_second_last_list :
    (∀ (path : Path) (g : Bool) (kf : String) (kv : Option String)
        (rest : List Node) (decoded : Option Value),
      path.nodes.reverse = Node.object kf :: Node.list g kf kv :: rest →
      ∃ e, IsValidAssign (.ok path) decoded = .error e)
    ∧ (∀ (path : Path) (lastN : Node) (g : Bool) (kf : String)
        (kv : Option String) (rest : List Node) (decoded : Option Value),
      path.nodes.reverse = lastN :: Node.list g kf kv :: rest →
      lastN.type ≠ NodeType.objectNode →
      ∃ e, IsValidAssign (.ok path) decoded = .error e)
    ∧ (∀ (path : Path) (lastN secondN : Node) (rest : List Node),
      path.nodes.reverse = lastN :: secondN :: rest →
      secondN.type ≠ NodeType.listNode →
      checkKeyNotChanged path = .ok ()) := by
  refine ⟨?_, ?_, ?_⟩
  · intro path g kf kv rest decoded h
    apply isValidAssign_error_of_checkKey path decoded
      "invalid path format: changing the item key is not allowed"
    unfold checkKeyNotChanged
    rw [h]
    simp
  · intro path lastN g kf kv rest decoded h htype
    cases lastN with
    | object r => simp [Node.type] at htype
    | list g2 kf2 kv2 =>
      apply isValidAssign_error_of_checkKey path decoded
        "invalid path format: child of a list can't be a list"
      unfold checkKeyNotChanged
      rw [h]
  · intro path lastN secondN rest h htype
    cases secondN with
    | list g2 kf2 kv2 => simp [Node.type] at htype
    | object r =>
      unfold checkKeyNotChanged
      rw [h]

theorem IsValidAssign_second_last_list_witness :
    ∃ e, IsValidAssign
      (.ok ⟨[Node.object "spec", Node.list false "name" (some "a"),
             Node.object "name"]⟩)
      (some (.obj [("value", .str "x")])) = .error e :=
  IsValidAssign_second_last_list.1
    ⟨[Node.object "spec", Node.list false "name" (some "a"), Node.object "name"]⟩
    false "name" (some "a") [Node.object "spec"]
    (some (.obj [("value", .str "x")])) rfl

/-- C1: when the last path node is a List node (and the earlier rules
pass, with a payload carrying a `value` field), validation rejects a
globbed node, a node without a key value, and a non-object value; it
rejects with a message naming the list key and the object's key value
when the value object's key field does not equal the node's key value;
and it accepts when the key field equals the key value. -/
theorem IsValidAssign_list_terminal
    (path : Path) (g : Bool) (kf : String) (kv : Option String)
    (rest : List Node) (fields : List (String × Value)) (v : Value)
    (hlast : path.nodes.reverse = Node.list g kf kv :: rest)
    (hmeta : hasMetadataRoot path = false)
    (hkey : checkKeyNotChanged path = .ok ())
    (hval : lookupField fields "value" = some v) :
    (g = true →
      IsValidAssign (.ok path) (some (.obj fields)) =
        .error "can't append to a globbed list")
    ∧ (g = false → kv = none →
      IsValidAssign (.ok path) (some (.obj fields)) =
        .error "invalid key value for a non globbed object")
    ∧ (∀ s, g = false → kv = some s → v.isObj = false →
      IsValidAssign (.ok path) (some (.obj fields)) =
        .error "only full objects can be appended to lists")
    ∧ (∀ s vfields, g = false → kv = some s → v = .obj vfields →
      keyMatches (lookupField vfields kf) s = false →
      IsValidAssign (.ok path) (some (.obj fields)) =
        .error (keyMismatchMsg kf s (lookupField vfields kf)))
    ∧ (∀ s vfields, g = false → kv = some s → v = .obj vfields →
      keyMatches (lookupField vfields kf) s = true →
      IsValidAssign (.ok path) (some (.obj fields)) = .ok ()) := by
  have hred := isValidAssign_value_reduction path fields v hmeta hkey hval
  refine ⟨?_, ?_, ?_, ?_, ?_⟩
  · intro hg
    subst hg
    rw [hred]
    unfold validateObjectAssignedToList
    rw [hlast]
    rfl
  · intro hg hkv
    subst hg
    subst hkv
    rw [hred]
    unfold validateObjectAssignedToList
    rw [hlast]
    rfl
  · intro s hg hkv hobj
    subst hg
    subst hkv
    rw [hred]
    unfold validateObjectAssignedToList
    rw [hlast]
    cases v with
    | null => rfl
    | bool b => rfl
    | num n => rfl
    | str s2 => rfl
    | arr xs => rfl
    | obj f => simp [Value.isObj] at hobj
  · intro s vfields hg hkv hv hmatch
    subst hg
    subst hkv
    subst hv
    rw [hred]
    unfold validateObjectAssignedToList
    rw [hlast]
    simp [hmatch]
  · intro s vfields hg hkv hv hmatch
    subst hg
    subst hkv
    subst hv
    rw [hred]
    unfold validateObjectAssignedToList
    rw [hlast]
    simp [hmatch]

theorem IsValidAssign_list_terminal_witness :
    IsValidAssign (.ok sampleListPath)
      (some (.obj [("value", .obj [("name", .str "nginx")])])) = .ok () :=
  (IsValidAssign_list_terminal sampleListPath false "name" (some "nginx")
      [Node.object "spec"] [("value", .obj [("name", .str "nginx")])]
      (.obj [("name", .str "nginx")]) rfl rfl rfl rfl).2.2.2.2
    "nginx" [("name", .str "nginx")] rfl rfl rfl rfl

/-- C4: validation rejects when the payload does not decode to a
structured object and when the decoded object lacks a `value` field; when
a `value` field exists (and the earlier rules pass), the remaining
validation is exactly `validateObjectAssignedToList` on the extracted
value. -/
theorem IsValidAssign_value_shape :
    (∀ (path : Path) (decoded : Option Value),
      decodesToObject decoded = false →
      ∃ e, IsValidAssign (.ok path) decoded = .error e)
    ∧ (∀ (path : Path) (fields : List (String × Value)),
      lookupField fields "value" = none →
      ∃ e, IsValidAssign (.ok path) (some (.obj fields)) = .error e)
    ∧ (∀ (path : Path) (fields : List (String × Value)) (v : Value),
      hasMetadataRoot path = false →
      checkKeyNotChanged path = .ok () →
      lookupField fields "value" = some v →
      IsValidAssign (.ok path) (some (.obj fields)) =
        validateObjectAssignedToList path v) := by
  refine ⟨?_, ?_, ?_⟩
  · intro path decoded h
    by_cases hm : hasMetadataRoot path = true
    · exact ⟨"assign can't change metadata", by unfold IsValidAssign; simp [hm]⟩
    · rw [Bool.not_eq_true] at hm
      cases hck : checkKeyNotChanged path with
      | error e => exact ⟨e, by unfold IsValidAssign; simp [hm, hck]⟩
      | ok u =>
        cases u
        cases decoded with
        | none =>
          exact ⟨"invalid format for parameters.assign",
            by unfold IsValidAssign; simp [hm, hck, unmarshalObject]⟩
        | some v =>
          cases v with
          | obj f => simp [decodesToObject] at h
          | null =>
            exact ⟨"spec.parameters.assign must have a value field",
              by unfold IsValidAssign; simp [hm, hck, unmarshalObject, lookupField]⟩
          | bool b =>
            exact ⟨"invalid format for parameters.assign",
              by unfold IsValidAssign; simp [hm, hck, unmarshalObject]⟩
          | num n =>
            exact ⟨"invalid format for parameters.assign",
              by unfold IsValidAssign; simp [hm, hck, unmarshalObject]⟩
          | str s =>
            exact ⟨"invalid format for parameters.assign",
              by unfold IsValidAssign; simp [hm, hck, unmarshalObject]⟩
          | arr xs =>
            exact ⟨"invalid format for parameters.assign",
              by unfold IsValidAssign; simp [hm, hck, unmarshalObject]⟩
  · intro path fields hnone
    by_cases hm : hasMetadataRoot path = true
    · exact ⟨"assign can't change metadata", by unfold IsValidAssign; simp [hm]⟩
    · rw [Bool.not_eq_true] at hm
      cases hck : checkKeyNotChanged path with
      | error e => exact ⟨e, by unfold IsValidAssign; simp [hm, hck]⟩
      | ok u =>
        cases u
        exact ⟨"spec.parameters.assign must have a value field",
          by unfold IsValidAssign; simp [hm, hck, unmarshalObject, hnone]⟩
  · intro path fields v hm hck hv
    exact isValidAssign_value_reduction path fields v hm hck hv

theorem IsValidAssign_value_shape_witness :
    ∃ e, IsValidAssign (.ok ⟨[Node.object "spec"]⟩) (some (.str "x")) =
      .error e :=
  IsValidAssign_value_shape.1 ⟨[Node.object "spec"]⟩ (some (.str "x")) rfl

/-- C10: when the last path node is an Object node and the metadata-root,
non-empty and key-immutability rules pass, validation accepts for every
type of the payload's `value` field. -/
theorem IsValidAssign_object_terminal
    (path : Path) (r : String) (rest : List Node)
    (fields : List (String × Value)) (v : Value)
    (hlast : path.nodes.reverse = Node.object r :: rest)
    (hmeta : hasMetadataRoot path = false)
    (hkey : checkKeyNotChanged path = .ok ())
    (hval : lookupField fields "value" = some v) :
    IsValidAssign (.ok path) (some (.obj fields)) = .ok () := by
  rw [isValidAssign_value_reduction path fields v hmeta hkey hval]
  unfold validateObjectAssignedToList
  rw [hlast]

theorem IsValidAssign_object_terminal_witness :
    IsValidAssign (.ok ⟨[Node.object "spec", Node.object "replicas"]⟩)
      (some (.obj [("value", .num 3)])) = .ok () :=
  IsValidAssign_object_terminal ⟨[Node.object "spec", Node.object "replicas"]⟩
    "replicas" [Node.object "spec"] [("value", .num 3)] (.num 3) rfl rfl rfl rfl

end Gatekeeper
